import Mathlib

/-!
Verification of the charmstore archive lifecycle core: a shallow embedding of
the entity store (`internal/charmstore/store.go`), the archive HTTP handlers
(`internal/v4/archive.go`), the icon/readme handlers and the stats kinds,
together with proofs about the claims of the specification.

Mongo collections are modelled as in-memory lists, the blob store as an
association list from blob names to blob contents, and the ElasticSearch
indexer as an injected success flag.  Asynchronous counter increments are
modelled as an explicit list of (reference, kind) events produced by each
handler call.
-/

namespace CharmStore

/-- Error kinds distinguished by the handlers (`params` error causes plus a
generic kind for all other errors). -/
inductive ErrKind
  | notFound
  | duplicateUpload
  | badRequest
  | other
deriving DecidableEq, Repr

/-- An error value: its errgo cause kind and its message. -/
structure Err where
  kind : ErrKind
  msg : String
deriving DecidableEq, Repr

/-- `errgo.Newf`: a fresh error with no special cause. -/
def newf (m : String) : Err := ⟨.other, m⟩

/-- `badRequestf`: an error with cause `params.ErrBadRequest`. -/
def badRequestf (m : String) : Err := ⟨.badRequest, m⟩

/-- `errgo.Notef`: prefix a message and hide the cause. -/
def notef (pre : String) (e : Err) : Err := ⟨.other, pre ++ ": " ++ e.msg⟩

/-- `errgo.Mask` with a list of allowed causes: the cause survives only when
it is in the allowed list. -/
def mask (allowed : List ErrKind) (e : Err) : Err :=
  if e.kind ∈ allowed then e else ⟨.other, e.msg⟩

/-- `errgo.NoteMask`: prefix a message, passing through allowed causes. -/
def noteMask (pre : String) (allowed : List ErrKind) (e : Err) : Err :=
  ⟨if e.kind ∈ allowed then e.kind else .other, pre ++ ": " ++ e.msg⟩

/-- `params.ErrNotFound`. -/
def errNotFound : Err := ⟨.notFound, "not found"⟩

/-- `params.ErrDuplicateUpload`. -/
def errDuplicateUpload : Err := ⟨.duplicateUpload, "duplicate upload"⟩

/-- `charm.Reference`: user, name, series and revision; series is `""` when
unspecified (or `"bundle"` for bundles) and revision is `-1` when
unspecified. -/
structure Reference where
  user : String
  name : String
  series : String
  revision : Int
deriving DecidableEq, Repr

/-- `baseURL` (store.go): the reference with series and revision cleared. -/
def baseURL (url : Reference) : Reference :=
  { url with revision := -1, series := "" }

/-- `matchURL` (store.go): post-filter applied after a base-URL query. -/
def matchURL (url pattern : Reference) : Bool :=
  (pattern.series == "" || url.series == pattern.series)
  && (pattern.revision == -1 || url.revision == pattern.revision)
  && (url.name == pattern.name)

/-- Modelled from the spec: `mongodoc.ZipFile` (not under src/), an
interior-file locator `{offset, compressedSize, uncompressedSize, method}`
plus a validity bit; an invalid locator records that the file was already
searched for and not found. -/
structure ZipFile where
  offset : Int
  compressedSize : Int
  uncompressedSize : Int
  method : Nat
  valid : Bool
deriving DecidableEq, Repr

/-- The zero `mongodoc.ZipFile`, used as the invalid marker. -/
def invalidZipFile : ZipFile :=
  { offset := 0, compressedSize := 0, uncompressedSize := 0, method := 0, valid := false }

/-- `charm.Relation`: the fields inspected by `checkRelationsAreValid`. -/
structure CharmRelation where
  name : String
  interface : String
deriving DecidableEq, Repr

/-- The error returned by `bundleData.VerifyWithCharms`: either a
`*charm.VerificationError` carrying the individual error messages, or some
other error. -/
inductive VerifyErr
  | verification (msgs : List String)
  | plain (msg : String)
deriving DecidableEq, Repr

/-- What parsing an uploaded blob yields: an unreadable archive, a charm
archive (its relation maps, as lists), or a bundle archive together with the
outcome of `VerifyWithCharms` against the resolved charms (`none` when
verification passes).  Bundle-charm resolution itself is modelled as always
succeeding. -/
inductive ArchiveDoc
  | badArchive
  | charm (provides requires peers : List CharmRelation)
  | bundle (verify : Option VerifyErr)
deriving DecidableEq, Repr

/-- A blob: its actual SHA-384 hex hash and size, whether it opens as a zip
archive, its zip members (name and locator) and its parse result as a
charm/bundle archive. -/
structure Body where
  hash : String
  size : Int
  zipOk : Bool
  files : List (String × ZipFile)
  doc : ArchiveDoc
deriving DecidableEq, Repr

/-- `mongodoc.Entity`: the metadata record for one uploaded revision.  The
parsed charm/bundle content fields not consulted by any claim are omitted. -/
structure Entity where
  url : Reference
  baseUrl : Reference
  user : String
  name : String
  revision : Int
  series : String
  blobHash : String
  blobName : String
  size : Int
  contents : List (String × ZipFile)
  promulgatedUrl : Option Reference
  promulgatedRevision : Int
deriving DecidableEq, Repr

/-- `mongodoc.BaseEntity`. -/
structure BaseEntity where
  url : Reference
  user : String
  name : String
  public : Bool
  aclRead : List String
  aclWrite : List String
  promulgated : Bool
deriving DecidableEq, Repr

/-- The store: the entities and base-entities collections and the blob
store's contents, keyed by blob name. -/
structure Store where
  entities : List Entity
  baseEntities : List BaseEntity
  blobs : List (String × Body)
deriving DecidableEq, Repr

/-- `charmstore.AddParams`. -/
structure AddParams where
  url : Reference
  blobName : String
  blobHash : String
  blobSize : Int
  contents : List (String × ZipFile)
  promulgatedUrl : Option Reference
  promulgatedRevision : Int
deriving DecidableEq, Repr

/-- `params.Everyone` (modelled from the spec; the constant is not under
src/): the ACL entry giving access to everybody. -/
def Everyone : String := "everyone"

/-- `params.StatsArchiveUpload` (src/unnamed/part_001). -/
def StatsArchiveUpload : String := "archive-upload"

/-- `params.StatsArchiveFailedUpload` (src/unnamed/part_001). -/
def StatsArchiveFailedUpload : String := "archive-failed-upload"

/-- `params.StatsArchiveDelete` (src/unnamed/part_001). -/
def StatsArchiveDelete : String := "archive-delete"

/-- Lookup in an entity's `Contents` map. -/
def getContents (m : List (String × ZipFile)) (k : String) : Option ZipFile :=
  (m.find? (fun kv => kv.1 == k)).map (fun kv => kv.2)

/-- Mongo `$set` of `contents.<fileId>`: replace the binding for `k`. -/
def setContents (m : List (String × ZipFile)) (k : String) (v : ZipFile) :
    List (String × ZipFile) :=
  (m.filter (fun kv => kv.1 != k)) ++ [(k, v)]

/-- One hex digit, lower case, as used by Go's JSON encoder. -/
def hexDigit (n : Nat) : String :=
  String.singleton (("0123456789abcdef".toList).getD n '0')

/-- Escaping of a single character inside a JSON string, following Go's
`encoding/json` encoder with its default HTML escaping. -/
def jsonEscapeChar (c : Char) : String :=
  if c = '"' then "\\\""
  else if c = '\\' then "\\\\"
  else if c = '\n' then "\\n"
  else if c = '\r' then "\\r"
  else if c = '\t' then "\\t"
  else if c = '<' then "\\u003c"
  else if c = '>' then "\\u003e"
  else if c = '&' then "\\u0026"
  else if c.toNat < 0x20 then
    "\\u00" ++ hexDigit (c.toNat / 16) ++ hexDigit (c.toNat % 16)
  else if c.toNat = 0x2028 then "\\u2028"
  else if c.toNat = 0x2029 then "\\u2029"
  else String.singleton c

/-- A JSON string literal for `s`, following Go's `encoding/json`. -/
def jsonQuote (s : String) : String :=
  "\"" ++ String.join (s.toList.map jsonEscapeChar) ++ "\""

/-- Go's `json.Marshal` of a non-nil `[]string`. -/
def jsonMarshalStrings (l : List String) : String :=
  "[" ++ String.intercalate "," (l.map jsonQuote) ++ "]"

/-- Lexicographic less-or-equal on character lists (Go compares the UTF-8
bytes; byte order and code-point order agree under UTF-8). -/
def charsLe : List Char → List Char → Bool
  | [], _ => true
  | _ :: _, [] => false
  | a :: as, b :: bs =>
    if a < b then true
    else if b < a then false
    else charsLe as bs

/-- Lexicographic less-or-equal on strings. -/
def strLe (a b : String) : Bool := charsLe a.data b.data

/-- Go's `sort.Strings`: ascending lexicographic sort (on strings the sorted
permutation is unique, so a stable insertion sort models it exactly). -/
def sortStrings (l : List String) : List String :=
  List.insertionSort (fun a b => strLe a b = true) l

/-- `verificationError` (archive.go): flatten a `*charm.VerificationError`
into a single error whose message is the JSON encoding of the sorted
individual messages; any other error is returned unchanged. -/
def verificationError : VerifyErr → Err
  | .verification msgs => ⟨.other, jsonMarshalStrings (sortStrings msgs)⟩
  | .plain m => ⟨.other, m⟩

/-- `checkRelationsAreValid` (archive.go): reject the template sentinel
relation name and interface name. -/
def checkRelationsAreValid : List CharmRelation → Except Err Unit
  | [] => .ok ()
  | rel :: rest =>
    if rel.name = "relation-name" then
      .error (newf ("relation " ++ rel.name ++ " has almost certainly not been changed from the template"))
    else if rel.interface = "interface-name" then
      .error (newf ("interface " ++ rel.interface ++ " in relation " ++ rel.name ++ " has almost certainly not been changed from the template"))
    else checkRelationsAreValid rest

/-- `checkCharmIsValid` (archive.go): check the provides, requires and peers
relation maps. -/
def checkCharmIsValid (provides requires peers : List CharmRelation) : Except Err Unit :=
  match checkRelationsAreValid provides with
  | .error e => .error (mask [] e)
  | .ok _ =>
    match checkRelationsAreValid requires with
    | .error e => .error (mask [] e)
    | .ok _ =>
      match checkRelationsAreValid peers with
      | .error e => .error (mask [] e)
      | .ok _ => .ok ()

/-- Split a character list at every `/`. -/
def splitSlash : List Char → List (List Char)
  | [] => [[]]
  | c :: rest =>
    if c = '/' then [] :: splitSlash rest
    else
      match splitSlash rest with
      | [] => [[c]]
      | comp :: comps => (c :: comp) :: comps

/-- Processing of one path component by Go's `path.Clean`. -/
def pathCleanStep (rooted : Bool) (acc : List (List Char)) (c : List Char) :
    List (List Char) :=
  if c = [] ∨ c = ['.'] then acc
  else if c = ['.', '.'] then
    if rooted then acc.dropLast
    else
      match acc.getLast? with
      | none => [['.', '.']]
      | some last => if last = ['.', '.'] then acc ++ [['.', '.']] else acc.dropLast
  else acc ++ [c]

/-- Join components with `/`. -/
def joinSlash : List (List Char) → List Char
  | [] => []
  | [c] => c
  | c :: cs => c ++ '/' :: joinSlash cs

/-- Go's `path.Clean` (standard library, used by the interior-file
predicates): remove empty and `.` components and resolve `..`. -/
def pathClean (p : String) : String :=
  if p = "" then "."
  else
    let chars := p.toList
    let rooted := chars.head? = some '/'
    let comps := (splitSlash chars).foldl (pathCleanStep rooted) []
    let out := joinSlash comps
    if rooted then ⟨'/' :: out⟩
    else if out = [] then "." else ⟨out⟩

/-- `FindEntities` (store.go): all entities matching a URL; a partial URL is
resolved through the base-URL index and post-filtered with `matchURL`. -/
def FindEntities (st : Store) (url : Reference) : List Entity :=
  let docs :=
    if url.series = "" ∨ url.revision = -1 then
      st.entities.filter (fun e => e.baseUrl == baseURL url)
    else
      st.entities.filter (fun e => e.url == url)
  docs.filter (fun e => matchURL e.url url)

/-- `FindEntity` (store.go): lookup of a fully qualified URL. -/
def FindEntity (st : Store) (url : Reference) : Except Err Entity :=
  if url.series = "" ∨ url.revision = -1 then
    .error (newf "entity id is not fully qualified")
  else
    match FindEntities st url with
    | [] => .error ⟨.notFound, "entity not found"⟩
    | e :: _ => .ok e

/-- `BlobNameAndHash` (store.go): blob name and hash of the entity with the
given id. -/
def BlobNameAndHash (st : Store) (id : Reference) : Except Err (String × String) :=
  match st.entities.find? (fun e => e.url == id) with
  | none => .error ⟨.notFound, "entity not found"⟩
  | some e => .ok (e.blobName, e.blobHash)

/-- `everyonePerm` (store.go). -/
def everyonePerm : List String := [Everyone]

/-- The base entity built by `insertEntity` (store.go): always public, read
ACL for everyone plus the owning user, write ACL for the owning user only. -/
def baseEntityFor (entity : Entity) : BaseEntity :=
  { url := entity.baseUrl
    user := entity.user
    name := entity.name
    public := true
    aclRead := if entity.user ≠ "" then [Everyone, entity.user] else everyonePerm
    aclWrite := if entity.user ≠ "" then [entity.user] else []
    promulgated := entity.promulgatedUrl.isSome }

/-- The base-entity insert step of `insertEntity` (store.go): a duplicate key
is ignored. -/
def insertBaseEntity (st : Store) (entity : Entity) : Store :=
  if st.baseEntities.any (fun b => b.url == entity.baseUrl) then st
  else { st with baseEntities := st.baseEntities ++ [baseEntityFor entity] }

/-- `insertEntity` (store.go): insert the base entity (ignoring a duplicate
key), insert the entity (duplicate key surfaces as `ErrDuplicateUpload`),
then index to ElasticSearch — whose success is the injected `searchOk` flag;
an indexing failure removes the just-inserted entity row again and is
propagated. -/
def insertEntity (st : Store) (entity : Entity) (searchOk : Bool) :
    Except Err Unit × Store :=
  let st1 := insertBaseEntity st entity
  if st1.entities.any (fun e => e.url == entity.url) then
    (.error errDuplicateUpload, st1)
  else
    let st2 := { st1 with entities := st1.entities ++ [entity] }
    if searchOk then (.ok (), st2)
    else
      (.error (notef "cannot index entity to ElasticSearch" (newf "search failed")),
       { st2 with entities := st2.entities.eraseP (fun e => e.url == entity.url) })

/-- `AddCharm` (store.go): refuse the bundle series, build the entity record,
refuse a charm whose name duplicates a bundle name, and insert. -/
def AddCharm (st : Store) (provides requires peers : List CharmRelation)
    (p : AddParams) (searchOk : Bool) : Except Err Unit × Store :=
  if p.url.series = "bundle" then
    (.error (newf "charm added with invalid id"), st)
  else
    let entity : Entity :=
      { url := p.url
        baseUrl := baseURL p.url
        user := p.url.user
        name := p.url.name
        revision := p.url.revision
        series := p.url.series
        blobHash := p.blobHash
        blobName := p.blobName
        size := p.blobSize
        contents := p.contents
        promulgatedUrl := p.promulgatedUrl
        promulgatedRevision := p.promulgatedRevision }
    let existing := FindEntities st (baseURL p.url)
    if existing.any (fun e => e.url.series == "bundle") then
      (.error (newf "charm name duplicates bundle name"), st)
    else
      match insertEntity st entity searchOk with
      | (.error e, st') => (.error (mask [.duplicateUpload] e), st')
      | (.ok _, st') => (.ok (), st')

/-- `AddBundle` (store.go): refuse a non-bundle series, build the entity
record, refuse a bundle whose name duplicates a charm name, and insert.  The
bundle-data–derived fields not consulted by any claim are omitted. -/
def AddBundle (st : Store) (p : AddParams) (searchOk : Bool) :
    Except Err Unit × Store :=
  if p.url.series ≠ "bundle" then
    (.error (newf "bundle added with invalid id"), st)
  else
    let entity : Entity :=
      { url := p.url
        baseUrl := baseURL p.url
        user := p.url.user
        name := p.url.name
        revision := p.url.revision
        series := p.url.series
        blobHash := p.blobHash
        blobName := p.blobName
        size := p.blobSize
        contents := p.contents
        promulgatedUrl := p.promulgatedUrl
        promulgatedRevision := p.promulgatedRevision }
    let existing := FindEntities st (baseURL p.url)
    if existing.any (fun e => e.url.series != "bundle") then
      (.error (newf "bundle name duplicates charm name"), st)
    else
      match insertEntity st entity searchOk with
      | (.error e, st') => (.error (mask [.duplicateUpload] e), st')
      | (.ok _, st') => (.ok (), st')

instance {ε α : Type} [DecidableEq ε] [DecidableEq α] : DecidableEq (Except ε α) :=
  fun x y =>
    match x, y with
    | .error a, .error b =>
      if h : a = b then isTrue (by rw [h]) else isFalse (by intro hh; cases hh; exact h rfl)
    | .ok a, .ok b =>
      if h : a = b then isTrue (by rw [h]) else isFalse (by intro hh; cases hh; exact h rfl)
    | .error _, .ok _ => isFalse (by intro hh; cases hh)
    | .ok _, .error _ => isFalse (by intro hh; cases hh)

/-- `charm.ReadCharmArchiveFromReader`: succeeds exactly on charm archives,
yielding the relation maps. -/
def readCharm : ArchiveDoc → Option (List CharmRelation × List CharmRelation × List CharmRelation)
  | .charm provides requires peers => some (provides, requires, peers)
  | _ => none

/-- `charm.ReadBundleArchiveFromReader`: succeeds exactly on bundle archives,
yielding the `VerifyWithCharms` outcome against the resolved charms. -/
def readBundle : ArchiveDoc → Option (Option VerifyErr)
  | .bundle verify => some verify
  | _ => none

/-- `addEntity` (archive.go): parse the blob as a bundle when the id's series
is `"bundle"` (resolve its charms — modelled as always succeeding — and
verify), else as a charm (and run the template-sentinel check), then add the
record through `AddBundle`/`AddCharm`. -/
def addEntity (st : Store) (id : Reference) (body : Body) (blobName hash : String)
    (contentLength : Int) (searchOk : Bool) : Except Err Unit × Store :=
  if id.series = "bundle" then
    match readBundle body.doc with
    | none => (.error (notef "cannot read bundle archive" (newf "bad archive")), st)
    | some verify =>
      match verify with
      | some verr =>
        (.error (notef "bundle verification failed" (verificationError verr)), st)
      | none =>
        match AddBundle st
            { url := id, blobName := blobName, blobHash := hash
              blobSize := contentLength, contents := []
              promulgatedUrl := none, promulgatedRevision := 0 } searchOk with
        | (.error e, st') => (.error (mask [.duplicateUpload] e), st')
        | (.ok _, st') => (.ok (), st')
  else
    match readCharm body.doc with
    | none => (.error (notef "cannot read charm archive" (newf "bad archive")), st)
    | some (provides, requires, peers) =>
      match checkCharmIsValid provides requires peers with
      | .error e => (.error (mask [] e), st)
      | .ok _ =>
        match AddCharm st provides requires peers
            { url := id, blobName := blobName, blobHash := hash
              blobSize := contentLength, contents := []
              promulgatedUrl := none, promulgatedRevision := 0 } searchOk with
        | (.error e, st') => (.error (mask [.duplicateUpload] e), st')
        | (.ok _, st') => (.ok (), st')

/-- Modelled from the spec: `blobstore.Store.PutUnchallenged` (not under
src/) writes the streamed bytes under the given name, failing when the name
already exists or the declared hash or size does not match the content. -/
def PutUnchallenged (st : Store) (body : Body) (name : String) (size : Int)
    (hash : String) : Except Err Store :=
  if st.blobs.any (fun b => b.1 == name) then
    .error (newf "blob name already exists")
  else if body.hash ≠ hash ∨ body.size ≠ size then
    .error (newf "hash mismatch")
  else
    .ok { st with blobs := st.blobs ++ [(name, body)] }

/-- `addBlobAndEntity` (archive.go): store the blob under the freshly
allocated `name`, reopen it, add the entity record, and remove the blob again
whenever a step after the blob write fails. -/
def addBlobAndEntity (st : Store) (id : Reference) (body : Body) (hash : String)
    (contentLength : Int) (name : String) (searchOk : Bool) :
    Except Err Unit × Store :=
  match PutUnchallenged st body name contentLength hash with
  | .error e => (.error (notef "cannot put archive blob" e), st)
  | .ok st1 =>
    match st1.blobs.find? (fun b => b.1 == name) with
    | none => (.error (notef "cannot open newly created blob" (newf "no blob")), st1)
    | some _ =>
      match addEntity st1 id body name hash contentLength searchOk with
      | (.error e, st2) =>
        (.error (mask [.duplicateUpload] e),
         { st2 with blobs := st2.blobs.eraseP (fun b => b.1 == name) })
      | (.ok _, st2) => (.ok (), st2)

/-- `latestRevisionInfo` (archive.go): the URL and blob hash of the matching
entity with the highest revision, or `none` (for `params.ErrNotFound`) when
nothing matches. -/
def latestRevisionInfo (st : Store) (id : Reference) : Option (Reference × String) :=
  match FindEntities st id with
  | [] => none
  | e :: es =>
    let latest := es.foldl
      (fun latest entity =>
        if entity.url.revision > latest.url.revision then entity else latest) e
    some (latest.url, latest.blobHash)

/-- The outcome of a POST or PUT archive request: the response (the
fully-qualified id on success, mirroring `params.ArchiveUploadResponse`, with
`none` for a nil id pointer), the resulting store, and the asynchronous
counter increments — each a (reference, kind) pair standing for
`IncCounterAsync(EntityStatsKey(ref, kind))`. -/
structure UploadOutcome where
  response : Except Err (Option Reference)
  store : Store
  stats : List (Reference × String)
deriving DecidableEq, Repr

/-- `servePostArchive` (archive.go) before its deferred
`updateStatsArchiveUpload`: precondition checks, idempotent short-circuit on
a matching latest hash, next-revision allocation, and `addBlobAndEntity`. -/
def servePostArchiveInner (st : Store) (id : Reference) (hash : String)
    (contentLength : Int) (body : Body) (freshName : String) (searchOk : Bool) :
    Except Err (Option Reference) × Store :=
  if id.series = "" then (.error (badRequestf "series not specified"), st)
  else if id.revision ≠ -1 then
    (.error (badRequestf "revision specified, but should not be specified"), st)
  else if hash = "" then (.error (badRequestf "hash parameter not specified"), st)
  else if contentLength = -1 then
    (.error (badRequestf "Content-Length not specified"), st)
  else
    let old := latestRevisionInfo st id
    let oldHash := match old with | none => "" | some (_, h) => h
    if oldHash = hash then
      (.ok (old.map Prod.fst), st)
    else
      let newRev := match old with | none => 0 | some (oldId, _) => oldId.revision + 1
      let newId := { id with revision := newRev }
      match addBlobAndEntity st newId body hash contentLength freshName searchOk with
      | (.error e, st') => (.error (mask [.duplicateUpload] e), st')
      | (.ok _, st') => (.ok (some newId), st')

/-- `servePostArchive` (archive.go) with its deferred
`updateStatsArchiveUpload`: the single counter increment for the id with the
revision cleared, kind `archive-upload` on success and
`archive-failed-upload` otherwise. -/
def servePostArchive (st : Store) (id : Reference) (hash : String)
    (contentLength : Int) (body : Body) (freshName : String) (searchOk : Bool) :
    UploadOutcome :=
  let r := servePostArchiveInner st id hash contentLength body freshName searchOk
  let kind :=
    match r.1 with
    | .ok _ => StatsArchiveUpload
    | .error _ => StatsArchiveFailedUpload
  { response := r.1, store := r.2, stats := [({ id with revision := -1 }, kind)] }

/-- `servePutArchive` (archive.go) before its deferred
`updateStatsArchiveUpload`: precondition checks (the revision must be
specified) and `addBlobAndEntity` at the caller-supplied revision. -/
def servePutArchiveInner (st : Store) (id : Reference) (hash : String)
    (contentLength : Int) (body : Body) (freshName : String) (searchOk : Bool) :
    Except Err (Option Reference) × Store :=
  if id.series = "" then (.error (badRequestf "series not specified"), st)
  else if id.revision = -1 then (.error (badRequestf "revision not specified"), st)
  else if hash = "" then (.error (badRequestf "hash parameter not specified"), st)
  else if contentLength = -1 then
    (.error (badRequestf "Content-Length not specified"), st)
  else
    match addBlobAndEntity st id body hash contentLength freshName searchOk with
    | (.error e, st') => (.error (mask [.duplicateUpload] e), st')
    | (.ok _, st') => (.ok (some id), st')

/-- `servePutArchive` (archive.go) with its deferred
`updateStatsArchiveUpload`. -/
def servePutArchive (st : Store) (id : Reference) (hash : String)
    (contentLength : Int) (body : Body) (freshName : String) (searchOk : Bool) :
    UploadOutcome :=
  let r := servePutArchiveInner st id hash contentLength body freshName searchOk
  let kind :=
    match r.1 with
    | .ok _ => StatsArchiveUpload
    | .error _ => StatsArchiveFailedUpload
  { response := r.1, store := r.2, stats := [({ id with revision := -1 }, kind)] }

/-- The outcome of a DELETE archive request. -/
structure DeleteOutcome where
  result : Except Err Unit
  store : Store
  stats : List (Reference × String)
deriving DecidableEq, Repr

/-- `serveDeleteArchive` (archive.go): look up the blob name, remove the
entity row, then remove the blob — blob-store removal is modelled from the
spec as idempotent on a missing name, with other failures injected through
`blobRemoveFails` — and finally increment the `archive-delete` counter. -/
def serveDeleteArchive (st : Store) (id : Reference) (blobRemoveFails : Bool) :
    DeleteOutcome :=
  match BlobNameAndHash st id with
  | .error e => { result := .error (mask [.notFound] e), store := st, stats := [] }
  | .ok (blobName, _) =>
    let st1 := { st with entities := st.entities.eraseP (fun e => e.url == id) }
    if blobRemoveFails then
      { result := .error (notef ("cannot remove blob " ++ blobName) (newf "remove failed"))
        store := st1
        stats := [] }
    else
      { result := .ok ()
        store := { st1 with blobs := st1.blobs.eraseP (fun b => b.1 == blobName) }
        stats := [(id, StatsArchiveDelete)] }

/-- `findZipFile` (store.go): scan the zip central directory for the first
member satisfying the predicate; returns the zero locator together with
`params.ErrNotFound` when no member matches, or an error when the blob does
not read as a zip archive. -/
def findZipFile (body : Body) (isFile : String → Bool) : ZipFile × Option Err :=
  if !body.zipOk then
    (invalidZipFile, some (notef "cannot read archive data" (newf "bad zip")))
  else
    match body.files.find? (fun f => isFile f.1) with
    | some f => (f.2, none)
    | none => (invalidZipFile, some errNotFound)

/-- The outcome of `OpenCachedBlobFile`: the served locator (standing for the
returned reader) or the error, the resulting store, and whether
`BlobStore.Open` was invoked. -/
structure OpenCachedOutcome where
  result : Except Err ZipFile
  store : Store
  blobOpened : Bool
deriving DecidableEq, Repr

/-- `OpenCachedBlobFile` (store.go) after the blob has been opened: find the
member when there is no cached locator, persist the locator (or the invalid
marker) into the entity's `Contents`, and serve it when valid. -/
def openCachedAfterOpen (st : Store) (entity : Entity) (fileId : String)
    (isFile : String → Bool) (cached : Option ZipFile) : OpenCachedOutcome :=
  match st.blobs.find? (fun b => b.1 == entity.blobName) with
  | none =>
    { result := .error (notef "cannot open archive blob" (newf "no blob"))
      store := st, blobOpened := true }
  | some b =>
    let step : Except Err ZipFile :=
      match cached with
      | some zipf => .ok zipf
      | none =>
        let found := findZipFile b.2 isFile
        match found.2 with
        | some e => if e.kind = .notFound then .ok found.1 else .error e
        | none => .ok found.1
    match step with
    | .error e => { result := .error (mask [] e), store := st, blobOpened := true }
    | .ok zipf =>
      if st.entities.any (fun e => e.url == entity.url) then
        let st' := { st with entities := st.entities.map (fun e =>
          if e.url == entity.url then
            { e with contents := setContents e.contents fileId zipf }
          else e) }
        if zipf.valid then
          { result := .ok zipf, store := st', blobOpened := true }
        else
          { result := .error ⟨.notFound, ""⟩, store := st', blobOpened := true }
      else
        { result := .error (notef "cannot update" (newf "not found"))
          store := st, blobOpened := true }

/-- `OpenCachedBlobFile` (store.go): an invalid-marked cached locator
short-circuits to `params.ErrNotFound` before the blob is opened. -/
def OpenCachedBlobFile (st : Store) (entity : Entity) (fileId : String)
    (isFile : String → Bool) : OpenCachedOutcome :=
  if entity.blobName = "" then
    { result := .error (newf "provided entity does not have required fields")
      store := st, blobOpened := false }
  else
    match getContents entity.contents fileId with
    | some zipf =>
      if !zipf.valid then
        { result := .error ⟨.notFound, ""⟩, store := st, blobOpened := false }
      else openCachedAfterOpen st entity fileId isFile (some zipf)
    | none => openCachedAfterOpen st entity fileId isFile none

/-- `mongodoc.FileIcon` (modelled from the spec; the constant is not under
src/): the `Contents` key of the cached icon locator. -/
def FileIcon : String := "icon"

/-- The icon-file predicate of `serveIcon` (src/unnamed/part_000). -/
def isIconFile (name : String) : Bool := pathClean name == "icon.svg"

/-- The body served by `serveIcon`: the built-in default icon, or the
processed (`processIcon`) archive member at the given locator. -/
inductive IconBody
  | defaultIcon
  | processed (zipf : ZipFile)
deriving DecidableEq, Repr

/-- `serveIcon` (src/unnamed/part_000): bundles get `params.ErrNotFound`;
otherwise the entity's cached `icon.svg` member is served through
`processIcon`, with the default icon body served when the lookup reports
not-found. -/
def serveIcon (st : Store) (id : Reference) : Except Err IconBody × Store :=
  if id.series = "bundle" then
    (.error ⟨.notFound, "icons not supported for bundles"⟩, st)
  else
    match FindEntity st id with
    | .error e => (.error (noteMask "cannot get icon" [.notFound] e), st)
    | .ok entity =>
      let out := OpenCachedBlobFile st entity FileIcon isIconFile
      match out.result with
      | .error e =>
        if e.kind ≠ .notFound then (.error (mask [] e), out.store)
        else (.ok .defaultIcon, out.store)
      | .ok zipf => (.ok (.processed zipf), out.store)

/-- The maximum of a list of integers, `none` when empty (specification-side
helper for the revision-allocation claim). -/
def listMax? : List Int → Option Int
  | [] => none
  | x :: xs => some (xs.foldl max x)

/-- Specification-side helper: the revisions of the stored entities with the
same user, name and series as `id`. -/
def matchingRevisions (st : Store) (id : Reference) : List Int :=
  (st.entities.filter (fun e =>
    e.url.user == id.user && e.url.name == id.name && e.url.series == id.series)).map
    (fun e => e.url.revision)

theorem find?_append_of_none {α : Type} {p : α → Bool} {l l' : List α}
    (h : l.find? p = none) : (l ++ l').find? p = l'.find? p := by
  induction l with
  | nil => rfl
  | cons x xs ih =>
    simp only [List.find?, List.cons_append] at h ⊢
    cases hx : p x with
    | true => simp [hx] at h
    | false =>
      simp only [hx] at h ⊢
      exact ih h

theorem eraseP_append_singleton {α : Type} {p : α → Bool} {l : List α} {a : α}
    (h : ∀ x ∈ l, p x = false) (ha : p a = true) : (l ++ [a]).eraseP p = l := by
  induction l with
  | nil => simp [List.eraseP, ha]
  | cons x xs ih =>
    have hx : p x = false := h x (by simp)
    simp only [List.cons_append, List.eraseP_cons, hx, cond_false]
    rw [ih (fun y hy => h y (by simp [hy]))]

@[simp] theorem insertBaseEntity_entities (st : Store) (e : Entity) :
    (insertBaseEntity st e).entities = st.entities := by
  unfold insertBaseEntity
  split <;> rfl

@[simp] theorem insertBaseEntity_blobs (st : Store) (e : Entity) :
    (insertBaseEntity st e).blobs = st.blobs := by
  unfold insertBaseEntity
  split <;> rfl

theorem insertEntity_blobs (st : Store) (e : Entity) (b : Bool) :
    ((insertEntity st e b).2).blobs = st.blobs := by
  unfold insertEntity
  simp only [insertBaseEntity_entities]
  split
  · exact insertBaseEntity_blobs st e
  · split <;> exact insertBaseEntity_blobs st e

theorem insertEntity_baseEntities (st : Store) (e : Entity) (b : Bool) :
    ((insertEntity st e b).2).baseEntities = (insertBaseEntity st e).baseEntities := by
  unfold insertEntity
  simp only [insertBaseEntity_entities]
  split
  · rfl
  · split <;> rfl

theorem insertEntity_error_entities (st : Store) (e : Entity) (b : Bool) (err : Err)
    (h : (insertEntity st e b).1 = .error err) :
    ((insertEntity st e b).2).entities = st.entities := by
  unfold insertEntity at h ⊢
  simp only [insertBaseEntity_entities] at h ⊢
  split at h
  case isTrue hdup =>
    rw [if_pos hdup]
    exact insertBaseEntity_entities st e
  case isFalse hdup =>
    rw [if_neg hdup]
    split at h
    case isTrue => exact absurd h (by simp)
    case isFalse hb =>
      rw [if_neg hb]
      have hall : ∀ x ∈ st.entities, (fun en => en.url == e.url) x = false := by
        intro x hx
        exact Bool.not_eq_true _ ▸ List.any_eq_false.mp (Bool.eq_false_iff.mpr hdup) x hx
      exact eraseP_append_singleton hall (by simp)

theorem insertEntity_ok_entities (st : Store) (e : Entity) (b : Bool)
    (h : ((insertEntity st e b).1).isOk = true) :
    ((insertEntity st e b).2).entities = st.entities ++ [e] := by
  unfold insertEntity at h ⊢
  simp only [insertBaseEntity_entities] at h ⊢
  split at h
  case isTrue => simp [Except.isOk, Except.toBool] at h
  case isFalse hdup =>
    rw [if_neg hdup]
    split at h
    case isTrue hb => rw [if_pos hb]
    case isFalse => simp [Except.isOk, Except.toBool] at h

theorem insertEntity_isOk_false_of_searchFail (st : Store) (e : Entity) :
    ((insertEntity st e false).1).isOk = false := by
  simp only [insertEntity]
  split <;> simp [Except.isOk, Except.toBool]

theorem insertEntity_error_kind (st : Store) (e : Entity) (b : Bool) (err : Err)
    (h : (insertEntity st e b).1 = .error err) :
    err.kind = .duplicateUpload ∨ err.kind = .other := by
  simp only [insertEntity] at h
  split at h
  · exact Or.inl (by cases h; rfl)
  · split at h
    · exact absurd h (by simp)
    · exact Or.inr (by cases h; rfl)

theorem insertEntity_eq_blobs {st : Store} {e : Entity} {b : Bool} {res : Except Err Unit}
    {st' : Store} (h : insertEntity st e b = (res, st')) : st'.blobs = st.blobs := by
  have h2 := insertEntity_blobs st e b
  rw [h] at h2
  exact h2

theorem insertEntity_eq_baseEntities {st : Store} {e : Entity} {b : Bool}
    {res : Except Err Unit} {st' : Store} (h : insertEntity st e b = (res, st')) :
    st'.baseEntities = (insertBaseEntity st e).baseEntities := by
  have h2 := insertEntity_baseEntities st e b
  rw [h] at h2
  exact h2

theorem insertEntity_eq_error_entities {st : Store} {e : Entity} {b : Bool} {err : Err}
    {st' : Store} (h : insertEntity st e b = (.error err, st')) :
    st'.entities = st.entities := by
  have h2 := insertEntity_error_entities st e b err (by rw [h])
  rw [h] at h2
  exact h2

theorem insertEntity_eq_ok_entities {st : Store} {e : Entity} {b : Bool}
    {st' : Store} (h : insertEntity st e b = (.ok (), st')) :
    st'.entities = st.entities ++ [e] := by
  have h2 := insertEntity_ok_entities st e b (by rw [h]; rfl)
  rw [h] at h2
  exact h2

theorem insertEntity_eq_searchFail {st : Store} {e : Entity} {res : Except Err Unit}
    {st' : Store} (h : insertEntity st e false = (res, st')) : res.isOk = false := by
  have h2 := insertEntity_isOk_false_of_searchFail st e
  rw [h] at h2
  exact h2

theorem insertEntity_eq_error_kind {st : Store} {e : Entity} {b : Bool} {err : Err}
    {st' : Store} (h : insertEntity st e b = (.error err, st')) :
    err.kind = .duplicateUpload ∨ err.kind = .other :=
  insertEntity_error_kind st e b err (by rw [h])

theorem AddCharm_eq_blobs {st : Store} {pr rq pe : List CharmRelation} {p : AddParams}
    {b : Bool} {res : Except Err Unit} {st' : Store}
    (h : AddCharm st pr rq pe p b = (res, st')) : st'.blobs = st.blobs := by
  simp only [AddCharm] at h
  split at h
  · cases h; rfl
  · split at h
    · cases h; rfl
    · split at h
      case _ e st'' heq => cases h; exact insertEntity_eq_blobs heq
      case _ u st'' heq => cases h; exact insertEntity_eq_blobs heq

theorem AddCharm_eq_error_entities {st : Store} {pr rq pe : List CharmRelation}
    {p : AddParams} {b : Bool} {err : Err} {st' : Store}
    (h : AddCharm st pr rq pe p b = (.error err, st')) : st'.entities = st.entities := by
  simp only [AddCharm] at h
  split at h
  · cases h; rfl
  · split at h
    · cases h; rfl
    · split at h
      case _ e st'' heq => cases h; exact insertEntity_eq_error_entities heq
      case _ u st'' heq => cases h

theorem AddCharm_eq_searchFail {st : Store} {pr rq pe : List CharmRelation}
    {p : AddParams} {res : Except Err Unit} {st' : Store}
    (h : AddCharm st pr rq pe p false = (res, st')) : res.isOk = false := by
  simp only [AddCharm] at h
  split at h
  · cases h; rfl
  · split at h
    · cases h; rfl
    · split at h
      case _ e st'' heq => cases h; rfl
      case _ u st'' heq =>
        cases h
        exact absurd (insertEntity_eq_searchFail heq) (by simp [Except.isOk, Except.toBool])

theorem AddCharm_eq_error_kind {st : Store} {pr rq pe : List CharmRelation}
    {p : AddParams} {b : Bool} {err : Err} {st' : Store}
    (h : AddCharm st pr rq pe p b = (.error err, st')) :
    err.kind = .duplicateUpload ∨ err.kind = .other := by
  simp only [AddCharm] at h
  split at h
  · cases h; exact Or.inr rfl
  · split at h
    · cases h; exact Or.inr rfl
    · split at h
      case _ e st'' heq =>
        cases h
        rcases insertEntity_eq_error_kind heq with hk | hk <;> simp [mask, hk]
      case _ u st'' heq => cases h

theorem AddBundle_eq_blobs {st : Store} {p : AddParams} {b : Bool}
    {res : Except Err Unit} {st' : Store}
    (h : AddBundle st p b = (res, st')) : st'.blobs = st.blobs := by
  simp only [AddBundle] at h
  split at h
  · cases h; rfl
  · split at h
    · cases h; rfl
    · split at h
      case _ e st'' heq => cases h; exact insertEntity_eq_blobs heq
      case _ u st'' heq => cases h; exact insertEntity_eq_blobs heq

theorem AddBundle_eq_error_entities {st : Store} {p : AddParams} {b : Bool} {err : Err}
    {st' : Store} (h : AddBundle st p b = (.error err, st')) :
    st'.entities = st.entities := by
  simp only [AddBundle] at h
  split at h
  · cases h; rfl
  · split at h
    · cases h; rfl
    · split at h
      case _ e st'' heq => cases h; exact insertEntity_eq_error_entities heq
      case _ u st'' heq => cases h

theorem AddBundle_eq_searchFail {st : Store} {p : AddParams}
    {res : Except Err Unit} {st' : Store}
    (h : AddBundle st p false = (res, st')) : res.isOk = false := by
  simp only [AddBundle] at h
  split at h
  · cases h; rfl
  · split at h
    · cases h; rfl
    · split at h
      case _ e st'' heq => cases h; rfl
      case _ u st'' heq =>
        cases h
        exact absurd (insertEntity_eq_searchFail heq) (by simp [Except.isOk, Except.toBool])

theorem AddBundle_eq_error_kind {st : Store} {p : AddParams} {b : Bool} {err : Err}
    {st' : Store} (h : AddBundle st p b = (.error err, st')) :
    err.kind = .duplicateUpload ∨ err.kind = .other := by
  simp only [AddBundle] at h
  split at h
  · cases h; exact Or.inr rfl
  · split at h
    · cases h; exact Or.inr rfl
    · split at h
      case _ e st'' heq =>
        cases h
        rcases insertEntity_eq_error_kind heq with hk | hk <;> simp [mask, hk]
      case _ u st'' heq => cases h

theorem addEntity_eq_blobs {st : Store} {id : Reference} {body : Body}
    {blobName hash : String} {cl : Int} {b : Bool} {res : Except Err Unit} {st' : Store}
    (h : addEntity st id body blobName hash cl b = (res, st')) : st'.blobs = st.blobs := by
  simp only [addEntity] at h
  split at h
  · split at h
    · cases h; rfl
    · split at h
      · cases h; rfl
      · split at h
        case _ e st'' heq => cases h; exact AddBundle_eq_blobs heq
        case _ u st'' heq => cases h; exact AddBundle_eq_blobs heq
  · split at h
    · cases h; rfl
    · split at h
      · cases h; rfl
      · split at h
        case _ e st'' heq => cases h; exact AddCharm_eq_blobs heq
        case _ u st'' heq => cases h; exact AddCharm_eq_blobs heq

theorem addEntity_eq_error_entities {st : Store} {id : Reference} {body : Body}
    {blobName hash : String} {cl : Int} {b : Bool} {err : Err} {st' : Store}
    (h : addEntity st id body blobName hash cl b = (.error err, st')) :
    st'.entities = st.entities := by
  simp only [addEntity] at h
  split at h
  · split at h
    · cases h; rfl
    · split at h
      · cases h; rfl
      · split at h
        case _ e st'' heq => cases h; exact AddBundle_eq_error_entities heq
        case _ u st'' heq => cases h
  · split at h
    · cases h; rfl
    · split at h
      · cases h; rfl
      · split at h
        case _ e st'' heq => cases h; exact AddCharm_eq_error_entities heq
        case _ u st'' heq => cases h

theorem addEntity_eq_searchFail {st : Store} {id : Reference} {body : Body}
    {blobName hash : String} {cl : Int} {res : Except Err Unit} {st' : Store}
    (h : addEntity st id body blobName hash cl false = (res, st')) : res.isOk = false := by
  simp only [addEntity] at h
  split at h
  · split at h
    · cases h; rfl
    · split at h
      · cases h; rfl
      · split at h
        case _ e st'' heq => cases h; rfl
        case _ u st'' heq =>
          cases h
          exact absurd (AddBundle_eq_searchFail heq) (by simp [Except.isOk, Except.toBool])
  · split at h
    · cases h; rfl
    · split at h
      · cases h; rfl
      · split at h
        case _ e st'' heq => cases h; rfl
        case _ u st'' heq =>
          cases h
          exact absurd (AddCharm_eq_searchFail heq) (by simp [Except.isOk, Except.toBool])

theorem addEntity_eq_error_kind {st : Store} {id : Reference} {body : Body}
    {blobName hash : String} {cl : Int} {b : Bool} {err : Err} {st' : Store}
    (h : addEntity st id body blobName hash cl b = (.error err, st')) :
    err.kind = .duplicateUpload ∨ err.kind = .other := by
  simp only [addEntity] at h
  split at h
  · split at h
    · cases h; exact Or.inr rfl
    · split at h
      · cases h; exact Or.inr rfl
      · split at h
        case _ e st'' heq =>
          cases h
          rcases AddBundle_eq_error_kind heq with hk | hk <;> simp [mask, hk]
        case _ u st'' heq => cases h
  · split at h
    · cases h; exact Or.inr rfl
    · split at h
      case _ e =>
        cases h
        exact Or.inr (by simp [mask])
      case _ =>
        split at h
        case _ e st'' heq =>
          cases h
          rcases AddCharm_eq_error_kind heq with hk | hk <;> simp [mask, hk]
        case _ u st'' heq => cases h

theorem PutUnchallenged_eq_ok {st : Store} {body : Body} {name : String} {size : Int}
    {hash : String} {st1 : Store} (h : PutUnchallenged st body name size hash = .ok st1) :
    st1.blobs = st.blobs ++ [(name, body)] := by
  simp only [PutUnchallenged] at h
  split at h
  · cases h
  · split at h
    · cases h
    · cases h; rfl

theorem addBlobAndEntity_eq_searchFail {st : Store} {id : Reference} {body : Body}
    {hash : String} {cl : Int} {name : String} {res : Except Err Unit} {st' : Store}
    (h : addBlobAndEntity st id body hash cl name false = (res, st')) :
    res.isOk = false := by
  simp only [addBlobAndEntity] at h
  split at h
  · cases h; rfl
  case _ st1 hput =>
    split at h
    · cases h; rfl
    · split at h
      case _ e st2 heq => cases h; rfl
      case _ u st2 heq =>
        cases h
        exact absurd (addEntity_eq_searchFail heq) (by simp [Except.isOk, Except.toBool])

/-- Claim C1: any failure of an upload after the blob has been written under
the freshly allocated name — archive parse failure, charm or bundle validity
failure, a duplicate entity insert, or a search-index failure after a
successful entity insert — leaves no blob under that name and no entity row
carrying that blob name; and a search-index failure always surfaces as an
error to the caller (with the just-inserted row deleted again, as no
remaining row carries the fresh blob name). -/
theorem addBlobAndEntity_rollback
    (st : Store) (id : Reference) (body : Body) (hash : String) (cl : Int)
    (name : String) (searchOk : Bool)
    (hfreshBlob : ∀ bl ∈ st.blobs, bl.1 ≠ name)
    (hfreshEnt : ∀ e ∈ st.entities, e.blobName ≠ name) :
    (∀ err st', addBlobAndEntity st id body hash cl name searchOk = (.error err, st') →
      (∀ bl ∈ st'.blobs, bl.1 ≠ name) ∧ (∀ e ∈ st'.entities, e.blobName ≠ name))
    ∧ (searchOk = false →
      ∃ err st', addBlobAndEntity st id body hash cl name searchOk = (.error err, st')) := by
  constructor
  · intro err st' h
    simp only [addBlobAndEntity] at h
    split at h
    · cases h; exact ⟨hfreshBlob, hfreshEnt⟩
    case _ st1 hput =>
      have hblobs1 : st1.blobs = st.blobs ++ [(name, body)] := PutUnchallenged_eq_ok hput
      have hents1 : st1.entities = st.entities := by
        simp only [PutUnchallenged] at hput
        split at hput
        · cases hput
        · split at hput
          · cases hput
          · cases hput; rfl
      split at h
      case _ hfind =>
        have hmem : (name, body) ∈ st1.blobs := by
          rw [hblobs1]; simp
        have := List.find?_eq_none.mp hfind _ hmem
        simp at this
      case _ w hfind =>
        split at h
        case _ e st2 heq =>
          cases h
          have hb2 : st2.blobs = st.blobs ++ [(name, body)] := by
            rw [addEntity_eq_blobs heq, hblobs1]
          have he2 : st2.entities = st.entities := by
            rw [addEntity_eq_error_entities heq, hents1]
          constructor
          · intro bl hbl
            have herase : st2.blobs.eraseP (fun b => b.1 == name) = st.blobs := by
              rw [hb2]
              exact eraseP_append_singleton
                (fun x hx => by simpa using hfreshBlob x hx) (by simp)
            rw [herase] at hbl
            exact hfreshBlob bl hbl
          · intro e' he'
            rw [he2] at he'
            exact hfreshEnt e' he'
        case _ u st2 heq => cases h
  · intro hs
    subst hs
    rcases hab : addBlobAndEntity st id body hash cl name false with ⟨res, st'⟩
    have := addBlobAndEntity_eq_searchFail hab
    cases res with
    | ok u => simp [Except.isOk, Except.toBool] at this
    | error e => exact ⟨e, st', rfl⟩

/-- Witness for C1 at a concrete input: the empty store, a fresh blob name,
and a search-index failure. -/
theorem addBlobAndEntity_rollback_witness :
    (∀ err st', addBlobAndEntity ⟨[], [], []⟩ ⟨"bob", "wordpress", "trusty", 0⟩
        ⟨"h1", 10, true, [], .charm [] [] []⟩ "h1" 10 "b0" false = (.error err, st') →
      (∀ bl ∈ st'.blobs, bl.1 ≠ "b0") ∧ (∀ e ∈ st'.entities, e.blobName ≠ "b0"))
    ∧ (false = false →
      ∃ err st', addBlobAndEntity ⟨[], [], []⟩ ⟨"bob", "wordpress", "trusty", 0⟩
        ⟨"h1", 10, true, [], .charm [] [] []⟩ "h1" 10 "b0" false = (.error err, st')) :=
  addBlobAndEntity_rollback ⟨[], [], []⟩ ⟨"bob", "wordpress", "trusty", 0⟩
    ⟨"h1", 10, true, [], .charm [] [] []⟩ "h1" 10 "b0" false
    (by intro bl hbl; cases hbl) (by intro e he; cases he)

/-- Claim C10: inserting an entity whose base entity is absent creates a base
entity that is public, readable by everyone (and by the owning user when
non-empty) and writable only by the owning user — regardless of the search
outcome or a duplicate entity, so an uploader has no way to request a private
upload. -/
theorem insertEntity_creates_public_baseEntity
    (st : Store) (entity : Entity) (searchOk : Bool)
    (habsent : ∀ b ∈ st.baseEntities, b.url ≠ entity.baseUrl) :
    ∃ b ∈ ((insertEntity st entity searchOk).2).baseEntities,
      b.url = entity.baseUrl ∧ b.public = true ∧
      b.aclRead = (if entity.user ≠ "" then [Everyone, entity.user] else [Everyone]) ∧
      b.aclWrite = (if entity.user ≠ "" then [entity.user] else []) := by
  rw [insertEntity_baseEntities]
  have hany : st.baseEntities.any (fun b => b.url == entity.baseUrl) = false := by
    rw [List.any_eq_false]
    intro b hb
    simpa using habsent b hb
  unfold insertBaseEntity
  rw [hany]
  simp only [Bool.false_eq_true, if_false]
  refine ⟨baseEntityFor entity, by simp, rfl, rfl, ?_, rfl⟩
  unfold baseEntityFor everyonePerm
  split <;> rfl

/-- Witness for C10 at a concrete input: an empty store and an entity owned
by a user. -/
theorem insertEntity_creates_public_baseEntity_witness :
    ∃ b ∈ ((insertEntity ⟨[], [], []⟩
        ⟨⟨"bob", "wordpress", "trusty", 0⟩, ⟨"bob", "wordpress", "", -1⟩, "bob",
          "wordpress", 0, "trusty", "h1", "b0", 10, [], none, 0⟩ true).2).baseEntities,
      b.url = (⟨"bob", "wordpress", "", -1⟩ : Reference) ∧ b.public = true ∧
      b.aclRead = (if ("bob" : String) ≠ "" then [Everyone, "bob"] else [Everyone]) ∧
      b.aclWrite = (if ("bob" : String) ≠ "" then ["bob"] else []) :=
  insertEntity_creates_public_baseEntity ⟨[], [], []⟩
    ⟨⟨"bob", "wordpress", "trusty", 0⟩, ⟨"bob", "wordpress", "", -1⟩, "bob",
      "wordpress", 0, "trusty", "h1", "b0", 10, [], none, 0⟩ true
    (by intro b hb; cases hb)

theorem charsLe_iff_not_lt (as bs : List Char) :
    charsLe as bs = true ↔ ¬ List.lt bs as := by
  induction as generalizing bs with
  | nil =>
    simp only [charsLe]
    constructor
    · intro _ h; cases h
    · intro _; trivial
  | cons a as ih =>
    cases bs with
    | nil =>
      simp only [charsLe]
      constructor
      · intro h; simp at h
      · intro h; exact absurd (List.lt.nil a as) h
    | cons b bs =>
      simp only [charsLe]
      by_cases hab : a < b
      · rw [if_pos hab]
        constructor
        · intro _ hlt
          cases hlt with
          | head _ _ h' => exact absurd h' (lt_asymm hab)
          | tail h1 h2 h3 => exact h2 hab
        · intro _; rfl
      · by_cases hba : b < a
        · rw [if_neg hab, if_pos hba]
          constructor
          · intro h; simp at h
          · intro h; exact absurd (List.lt.head _ _ hba) h
        · rw [if_neg hab, if_neg hba, ih bs]
          constructor
          · intro h hlt
            cases hlt with
            | head _ _ h' => exact hba h'
            | tail h1 h2 h3 => exact h h3
          · intro h hlt
            exact h (List.lt.tail hba hab hlt)

theorem strLe_iff_le (a b : String) : strLe a b = true ↔ a ≤ b := by
  rw [← not_lt, String.lt_iff_toList_lt]
  constructor
  · intro hs hlt
    exact (charsLe_iff_not_lt a.data b.data).mp hs
      ((List.lt_iff_lex_lt b.data a.data).mpr hlt)
  · intro h
    exact (charsLe_iff_not_lt a.data b.data).mpr
      (fun hlt => h ((List.lt_iff_lex_lt b.data a.data).mp hlt))

theorem sortStrings_perm (l : List String) : (sortStrings l).Perm l :=
  List.perm_insertionSort _ l

theorem sortStrings_sorted (l : List String) : List.Sorted (· ≤ ·) (sortStrings l) := by
  have htot : IsTotal String (fun a b => strLe a b = true) :=
    ⟨fun a b => by rw [strLe_iff_le, strLe_iff_le]; exact le_total a b⟩
  have htrans : IsTrans String (fun a b => strLe a b = true) :=
    ⟨fun a b c hab hbc => by
      rw [strLe_iff_le] at hab hbc ⊢
      exact le_trans hab hbc⟩
  have hs := @List.sorted_insertionSort String (fun a b => strLe a b = true) _ htot htrans l
  exact hs.imp (fun h => (strLe_iff_le _ _).mp h)

/-- The helper `verificationError` alone flattens a verification failure into
an error whose message is exactly the JSON encoding of the sorted individual
messages (before `addEntity` prefixes its context). -/
theorem verificationError_sorted_json (msgs : List String) :
    ∃ sorted, sorted.Perm msgs ∧ List.Sorted (· ≤ ·) sorted ∧
      (verificationError (VerifyErr.verification msgs)).msg = jsonMarshalStrings sorted :=
  ⟨sortStrings msgs, sortStrings_perm msgs, sortStrings_sorted msgs, rfl⟩

/-- Counterexample to C6 as stated: a bundle POST failing verification with
messages `["z err", "a err"]` returns an error whose message is the JSON of
the sorted messages prefixed by `"bundle verification failed: "` — so it is
not the JSON encoding itself. -/
theorem servePostArchive_bundle_verification_prefixed :
    (servePostArchive ⟨[], [], []⟩ ⟨"bob", "stack", "bundle", -1⟩ "hv" 5
        ⟨"hv", 5, true, [], .bundle (some (.verification ["z err", "a err"]))⟩
        "b9" true).response
      = .error ⟨.other,
          "bundle verification failed: " ++ jsonMarshalStrings (sortStrings ["z err", "a err"])⟩
    ∧ "bundle verification failed: " ++ jsonMarshalStrings (sortStrings ["z err", "a err"])
      ≠ jsonMarshalStrings (sortStrings ["z err", "a err"]) := by
  refine ⟨?_, ?_⟩ <;> decide

/-- Claim C6 (amended): for every bundle upload whose verification against
the resolved charm catalogue fails with a list of verification errors, the
returned error's message is `"bundle verification failed: "` followed by the
JSON encoding of the individual error messages sorted lexicographically —
the JSON list built by `verificationError` from the sorted messages, the
prefix added by `addEntity`'s errgo annotation — and no entity is added. -/
theorem addEntity_bundle_verification_message (st : Store) (id : Reference)
    (body : Body) (blobName hash : String) (cl : Int) (sOk : Bool)
    (msgs : List String)
    (hser : id.series = "bundle")
    (hdoc : body.doc = .bundle (some (.verification msgs))) :
    ∃ sorted, sorted.Perm msgs ∧ List.Sorted (· ≤ ·) sorted ∧
      addEntity st id body blobName hash cl sOk
        = (.error ⟨.other, "bundle verification failed: " ++ jsonMarshalStrings sorted⟩,
           st) := by
  refine ⟨sortStrings msgs, sortStrings_perm msgs, sortStrings_sorted msgs, ?_⟩
  simp only [addEntity, hser, hdoc, readBundle, if_pos]
  rfl

/-- Witness for C6's amended claim at a concrete input: a bundle upload whose
verification fails with two messages. -/
theorem addEntity_bundle_verification_message_witness :
    ∃ sorted, sorted.Perm ["z err", "a err"] ∧ List.Sorted (· ≤ ·) sorted ∧
      addEntity ⟨[], [], []⟩ ⟨"bob", "stack", "bundle", 0⟩
          ⟨"hv", 5, true, [], .bundle (some (.verification ["z err", "a err"]))⟩
          "b9" "hv" 5 true
        = (.error ⟨.other, "bundle verification failed: " ++ jsonMarshalStrings sorted⟩,
           ⟨[], [], []⟩) :=
  addEntity_bundle_verification_message ⟨[], [], []⟩ ⟨"bob", "stack", "bundle", 0⟩
    ⟨"hv", 5, true, [], .bundle (some (.verification ["z err", "a err"]))⟩
    "b9" "hv" 5 true ["z err", "a err"] rfl rfl

/-- Counterexample to C9 as stated: a successful POST increments exactly one
counter, but its reference is not the base identity of the uploaded ref (the
base ref clears the series; the counter's ref retains series `"trusty"`). -/
theorem servePostArchive_stats_not_base_identity :
    ((servePostArchive ⟨[], [], []⟩ ⟨"bob", "wordpress", "trusty", -1⟩ "h1" 10
        ⟨"h1", 10, true, [], .charm [] [] []⟩ "b0" true).response).isOk = true
    ∧ ((servePostArchive ⟨[], [], []⟩ ⟨"bob", "wordpress", "trusty", -1⟩ "h1" 10
        ⟨"h1", 10, true, [], .charm [] [] []⟩ "b0" true).stats).length = 1
    ∧ ((servePostArchive ⟨[], [], []⟩ ⟨"bob", "wordpress", "trusty", -1⟩ "h1" 10
        ⟨"h1", 10, true, [], .charm [] [] []⟩ "b0" true).stats).all
        (fun s => !(s.1 == baseURL ⟨"bob", "wordpress", "trusty", -1⟩)) = true := by
  refine ⟨?_, ?_, ?_⟩ <;> decide

/-- Claim C9 (amended): every POST or PUT archive request increments exactly
one upload counter, keyed by the uploaded ref with only the revision cleared
(series and user are retained, so the key is not the base ref), with kind
`archive-upload` when the operation succeeded and `archive-failed-upload`
otherwise. -/
theorem serveArchive_upload_stats (st : Store) (id : Reference) (hash : String)
    (cl : Int) (body : Body) (nm : String) (sOk : Bool) :
    (servePostArchive st id hash cl body nm sOk).stats
      = [({ id with revision := -1 },
          if ((servePostArchive st id hash cl body nm sOk).response).isOk
          then StatsArchiveUpload else StatsArchiveFailedUpload)]
    ∧ (servePutArchive st id hash cl body nm sOk).stats
      = [({ id with revision := -1 },
          if ((servePutArchive st id hash cl body nm sOk).response).isOk
          then StatsArchiveUpload else StatsArchiveFailedUpload)] := by
  constructor
  · rcases h : servePostArchiveInner st id hash cl body nm sOk with ⟨res, st2⟩
    simp only [servePostArchive, h]
    cases res <;> rfl
  · rcases h : servePutArchiveInner st id hash cl body nm sOk with ⟨res, st2⟩
    simp only [servePutArchive, h]
    cases res <;> rfl

/-- Counterexample to C5 as stated: deleting a stored archive while blob
removal fails makes the handler report an error, not success. -/
theorem serveDeleteArchive_blobfail_not_success :
    ((serveDeleteArchive
        ⟨[⟨⟨"bob", "wordpress", "trusty", 0⟩, ⟨"bob", "wordpress", "", -1⟩, "bob",
            "wordpress", 0, "trusty", "h5", "b5", 10, [], none, 0⟩], [],
          [("b5", ⟨"h5", 10, true, [], .charm [] [] []⟩)]⟩
        ⟨"bob", "wordpress", "trusty", 0⟩ true).result).isOk = false := by
  decide

/-- Claim C5 (amended): DELETE of a stored archive removes the entity row
first and then the blob; when blob removal fails the handler returns an error
(and no delete counter is incremented) although the entity row stays removed;
when blob removal succeeds — removal being idempotent on a missing blob — the
handler reports success, removes the blob and increments the `archive-delete`
counter for the full id. -/
theorem serveDeleteArchive_behaviour (st : Store) (id : Reference)
    (removeFails : Bool) (e : Entity)
    (hmem : st.entities.find? (fun x => x.url == id) = some e) :
    ((serveDeleteArchive st id removeFails).store).entities
        = st.entities.eraseP (fun x => x.url == id)
    ∧ (removeFails = true →
        ((serveDeleteArchive st id removeFails).result).isOk = false
        ∧ (serveDeleteArchive st id removeFails).stats = [])
    ∧ (removeFails = false →
        ((serveDeleteArchive st id removeFails).result).isOk = true
        ∧ ((serveDeleteArchive st id removeFails).store).blobs
            = st.blobs.eraseP (fun b => b.1 == e.blobName)
        ∧ (serveDeleteArchive st id removeFails).stats = [(id, StatsArchiveDelete)]) := by
  simp only [serveDeleteArchive, BlobNameAndHash, hmem]
  cases removeFails <;> simp [Except.isOk, Except.toBool]

/-- Witness for C5's amended claim at a concrete input: a store holding one
entity, with blob removal failing. -/
theorem serveDeleteArchive_behaviour_witness :
    ((serveDeleteArchive
        ⟨[⟨⟨"bob", "wordpress", "trusty", 0⟩, ⟨"bob", "wordpress", "", -1⟩, "bob",
            "wordpress", 0, "trusty", "h5", "b5", 10, [], none, 0⟩], [],
          [("b5", ⟨"h5", 10, true, [], .charm [] [] []⟩)]⟩
        ⟨"bob", "wordpress", "trusty", 0⟩ true).store).entities
      = ([⟨⟨"bob", "wordpress", "trusty", 0⟩, ⟨"bob", "wordpress", "", -1⟩, "bob",
            "wordpress", 0, "trusty", "h5", "b5", 10, [], none, 0⟩] : List Entity).eraseP
          (fun x => x.url == ⟨"bob", "wordpress", "trusty", 0⟩)
    ∧ (true = true →
        ((serveDeleteArchive
            ⟨[⟨⟨"bob", "wordpress", "trusty", 0⟩, ⟨"bob", "wordpress", "", -1⟩, "bob",
                "wordpress", 0, "trusty", "h5", "b5", 10, [], none, 0⟩], [],
              [("b5", ⟨"h5", 10, true, [], .charm [] [] []⟩)]⟩
            ⟨"bob", "wordpress", "trusty", 0⟩ true).result).isOk = false
        ∧ (serveDeleteArchive
            ⟨[⟨⟨"bob", "wordpress", "trusty", 0⟩, ⟨"bob", "wordpress", "", -1⟩, "bob",
                "wordpress", 0, "trusty", "h5", "b5", 10, [], none, 0⟩], [],
              [("b5", ⟨"h5", 10, true, [], .charm [] [] []⟩)]⟩
            ⟨"bob", "wordpress", "trusty", 0⟩ true).stats = [])
    ∧ (true = false →
        ((serveDeleteArchive
            ⟨[⟨⟨"bob", "wordpress", "trusty", 0⟩, ⟨"bob", "wordpress", "", -1⟩, "bob",
                "wordpress", 0, "trusty", "h5", "b5", 10, [], none, 0⟩], [],
              [("b5", ⟨"h5", 10, true, [], .charm [] [] []⟩)]⟩
            ⟨"bob", "wordpress", "trusty", 0⟩ true).result).isOk = true
        ∧ ((serveDeleteArchive
            ⟨[⟨⟨"bob", "wordpress", "trusty", 0⟩, ⟨"bob", "wordpress", "", -1⟩, "bob",
                "wordpress", 0, "trusty", "h5", "b5", 10, [], none, 0⟩], [],
              [("b5", ⟨"h5", 10, true, [], .charm [] [] []⟩)]⟩
            ⟨"bob", "wordpress", "trusty", 0⟩ true).store).blobs
            = ([("b5", ⟨"h5", 10, true, [], .charm [] [] []⟩)] : List (String × Body)).eraseP
                (fun b => b.1 == "b5")
        ∧ (serveDeleteArchive
            ⟨[⟨⟨"bob", "wordpress", "trusty", 0⟩, ⟨"bob", "wordpress", "", -1⟩, "bob",
                "wordpress", 0, "trusty", "h5", "b5", 10, [], none, 0⟩], [],
              [("b5", ⟨"h5", 10, true, [], .charm [] [] []⟩)]⟩
            ⟨"bob", "wordpress", "trusty", 0⟩ true).stats
            = [(⟨"bob", "wordpress", "trusty", 0⟩, StatsArchiveDelete)]) :=
  serveDeleteArchive_behaviour _ ⟨"bob", "wordpress", "trusty", 0⟩ true
    ⟨⟨"bob", "wordpress", "trusty", 0⟩, ⟨"bob", "wordpress", "", -1⟩, "bob",
      "wordpress", 0, "trusty", "h5", "b5", 10, [], none, 0⟩ (by decide)

/-- Counterexample to C4 as stated: a stored bundle entity whose archive
holds no `icon.svg` member gets `params.ErrNotFound` from the icon handler,
not a successful default-icon response. -/
theorem serveIcon_bundle_notFound :
    (serveIcon
        ⟨[⟨⟨"bob", "stack", "bundle", 0⟩, ⟨"bob", "stack", "", -1⟩, "bob", "stack",
            0, "bundle", "hb", "bb", 5, [], none, 0⟩], [],
          [("bb", ⟨"hb", 5, true, [], .bundle none⟩)]⟩
        ⟨"bob", "stack", "bundle", 0⟩).1
      = Except.error ⟨ErrKind.notFound, "icons not supported for bundles"⟩ := by
  decide

/-- Claim C4 (amended): for a fully qualified id with series other than
`"bundle"` naming a stored entity — with the blob present and readable as a
zip, the icon cache entry absent or invalid-marked, and no zip member whose
cleaned path is `icon.svg` — the handler serves the default icon with
success; for an id with series `"bundle"` it returns NotFound instead. -/
theorem serveIcon_default_icon (st : Store) (id : Reference) (entity : Entity)
    (hser : id.series ≠ "bundle")
    (hfe : FindEntity st id = .ok entity)
    (hblobName : entity.blobName ≠ "")
    (hcache : ∀ zf, getContents entity.contents FileIcon = some zf → zf.valid = false)
    (p : String × Body)
    (hblob : st.blobs.find? (fun bl => bl.1 == entity.blobName) = some p)
    (hzip : (p.2).zipOk = true)
    (hnoicon : (p.2).files.find? (fun f => isIconFile f.1) = none)
    (hstored : st.entities.any (fun e => e.url == entity.url) = true) :
    (serveIcon st id).1 = .ok .defaultIcon
    ∧ (∀ id', id'.series = "bundle" →
        (serveIcon st id').1 = .error ⟨.notFound, "icons not supported for bundles"⟩) := by
  constructor
  · simp only [serveIcon, hfe]
    rw [if_neg hser]
    have hopen : ∀ cached, (∀ zf, cached = some zf → zf.valid = false) →
        ((openCachedAfterOpen st entity FileIcon isIconFile cached).result
          = .error ⟨.notFound, ""⟩
        ∨ (openCachedAfterOpen st entity FileIcon isIconFile cached).result
          = .error ⟨.notFound, "not found"⟩) := by
      intro cached hc
      simp only [openCachedAfterOpen, hblob]
      cases cached with
      | some zf =>
        have hv := hc zf rfl
        simp only [findZipFile, hzip]
        have : st.entities.any (fun e => e.url == entity.url) = true := hstored
        rw [if_pos this, if_neg (by rw [hv]; simp)]
        exact Or.inl rfl
      | none =>
        simp only [findZipFile, hzip, Bool.not_true, Bool.false_eq_true, if_false, hnoicon]
        simp only [errNotFound, if_true]
        rw [if_pos hstored, if_neg (by simp [invalidZipFile])]
        exact Or.inl rfl
    rcases hc : getContents entity.contents FileIcon with _ | zf
    · simp only [OpenCachedBlobFile, hc]
      rw [if_neg hblobName]
      rcases hopen none (by intro zf h; cases h) with h | h <;> rw [h] <;> rfl
    · have hv : zf.valid = false := hcache zf hc
      simp only [OpenCachedBlobFile, hc]
      rw [if_neg hblobName, hv]
      rfl
  · intro id' hs
    simp only [serveIcon]
    rw [if_pos hs]

/-- Witness for C4's amended claim at a concrete input: a stored charm whose
archive has a readme member but no icon. -/
theorem serveIcon_default_icon_witness :
    (serveIcon
        ⟨[⟨⟨"bob", "wordpress", "trusty", 0⟩, ⟨"bob", "wordpress", "", -1⟩, "bob",
            "wordpress", 0, "trusty", "h1", "b0", 10, [], none, 0⟩], [],
          [("b0", ⟨"h1", 10, true, [("README.md", ⟨3, 4, 5, 8, true⟩)],
            .charm [] [] []⟩)]⟩
        ⟨"bob", "wordpress", "trusty", 0⟩).1 = .ok .defaultIcon
    ∧ (∀ id', id'.series = "bundle" →
        (serveIcon
          ⟨[⟨⟨"bob", "wordpress", "trusty", 0⟩, ⟨"bob", "wordpress", "", -1⟩, "bob",
              "wordpress", 0, "trusty", "h1", "b0", 10, [], none, 0⟩], [],
            [("b0", ⟨"h1", 10, true, [("README.md", ⟨3, 4, 5, 8, true⟩)],
              .charm [] [] []⟩)]⟩
          id').1 = .error ⟨.notFound, "icons not supported for bundles"⟩) :=
  serveIcon_default_icon _ ⟨"bob", "wordpress", "trusty", 0⟩
    ⟨⟨"bob", "wordpress", "trusty", 0⟩, ⟨"bob", "wordpress", "", -1⟩, "bob",
      "wordpress", 0, "trusty", "h1", "b0", 10, [], none, 0⟩
    (by decide) (by decide) (by decide)
    (by intro zf h; cases h)
    ("b0", ⟨"h1", 10, true, [("README.md", ⟨3, 4, 5, 8, true⟩)], .charm [] [] []⟩)
    (by decide) (by decide) (by decide) (by decide)

theorem getContents_setContents (m : List (String × ZipFile)) (k : String) (v : ZipFile) :
    getContents (setContents m k v) k = some v := by
  unfold getContents setContents
  have hnone : (m.filter (fun kv => kv.1 != k)).find? (fun kv => kv.1 == k) = none := by
    rw [List.find?_eq_none]
    intro x hx
    have h2 := (List.mem_filter.mp hx).2
    simp only [bne_iff_ne, ne_eq] at h2
    simpa using h2
  rw [find?_append_of_none hnone]
  simp [List.find?]

theorem openCachedAfterOpen_persists (st : Store) (entity : Entity) (fileId : String)
    (isFile : String → Bool) (p : String × Body)
    (hblob : st.blobs.find? (fun bl => bl.1 == entity.blobName) = some p)
    (hz : (p.2).zipOk = true)
    (hstored : st.entities.any (fun e => e.url == entity.url) = true) :
    ((openCachedAfterOpen st entity fileId isFile none).store).entities
      = st.entities.map (fun e =>
          if e.url == entity.url then
            { e with
                contents :=
                  setContents e.contents fileId
                    (match (p.2).files.find? (fun f => isFile f.1) with
                      | some f => f.2
                      | none => invalidZipFile) }
          else e) := by
  simp only [openCachedAfterOpen, hblob, findZipFile, hz, Bool.not_true,
    Bool.false_eq_true, if_false]
  rcases hf : (p.2).files.find? (fun f => isFile f.1) with _ | f
  · simp only [hf, errNotFound, if_true]
    rw [if_pos hstored, if_neg (by simp [invalidZipFile])]
  · simp only [hf]
    rw [if_pos hstored]
    split <;> rfl

/-- Claim C8: a call to `OpenCachedBlobFile` on an entity whose `Contents`
map holds an invalid-marked locator for the requested file id returns
NotFound immediately, without opening the blob and without touching the
store; and when no cached locator exists, after scanning the zip directory
the found locator — or the invalid marker when no member matches — is
persisted into the stored entity's `Contents` map regardless of whether the
file was found. -/
theorem OpenCachedBlobFile_cache_contract (st : Store) (entity : Entity)
    (fileId : String) (isFile : String → Bool) (hbn : entity.blobName ≠ "") :
    (∀ zipf, getContents entity.contents fileId = some zipf → zipf.valid = false →
      OpenCachedBlobFile st entity fileId isFile = ⟨.error ⟨.notFound, ""⟩, st, false⟩)
    ∧ (getContents entity.contents fileId = none →
      ∀ p, st.blobs.find? (fun bl => bl.1 == entity.blobName) = some p →
      (p.2).zipOk = true →
      st.entities.any (fun e => e.url == entity.url) = true →
      ∃ e' ∈ ((OpenCachedBlobFile st entity fileId isFile).store).entities,
        e'.url = entity.url ∧
        getContents e'.contents fileId
          = some (match (p.2).files.find? (fun f => isFile f.1) with
                  | some f => f.2
                  | none => invalidZipFile)) := by
  constructor
  · intro zipf hc hv
    simp only [OpenCachedBlobFile, hc]
    rw [if_neg hbn, hv]
    rfl
  · intro hc p hblob hz hstored
    have hpersist := openCachedAfterOpen_persists st entity fileId isFile p hblob hz hstored
    have hout : (OpenCachedBlobFile st entity fileId isFile).store
        = (openCachedAfterOpen st entity fileId isFile none).store := by
      simp only [OpenCachedBlobFile, hc]
      rw [if_neg hbn]
    rw [hout, hpersist]
    rcases List.any_eq_true.mp hstored with ⟨e, he, heq⟩
    have heq' : e.url = entity.url := by simpa using heq
    refine ⟨_, List.mem_map_of_mem _ he, ?_, ?_⟩
    · rw [if_pos heq]
      exact heq'
    · rw [if_pos heq]
      exact getContents_setContents _ _ _

/-- Witness for C8 at concrete inputs: an entity with an invalid cached icon
marker (part one), and an entity with no cached locator over a blob with no
matching member (part two). -/
theorem OpenCachedBlobFile_cache_contract_witness :
    OpenCachedBlobFile
        ⟨[], [], []⟩
        ⟨⟨"bob", "wordpress", "trusty", 0⟩, ⟨"bob", "wordpress", "", -1⟩, "bob",
          "wordpress", 0, "trusty", "h1", "b0", 10,
          [("icon", ⟨0, 0, 0, 0, false⟩)], none, 0⟩
        "icon" isIconFile
      = ⟨.error ⟨.notFound, ""⟩, ⟨[], [], []⟩, false⟩
    ∧ ∃ e' ∈ ((OpenCachedBlobFile
        ⟨[⟨⟨"bob", "wordpress", "trusty", 0⟩, ⟨"bob", "wordpress", "", -1⟩, "bob",
            "wordpress", 0, "trusty", "h1", "b0", 10, [], none, 0⟩], [],
          [("b0", ⟨"h1", 10, true, [("README.md", ⟨3, 4, 5, 8, true⟩)],
            .charm [] [] []⟩)]⟩
        ⟨⟨"bob", "wordpress", "trusty", 0⟩, ⟨"bob", "wordpress", "", -1⟩, "bob",
          "wordpress", 0, "trusty", "h1", "b0", 10, [], none, 0⟩
        "icon" isIconFile).store).entities,
        e'.url = (⟨"bob", "wordpress", "trusty", 0⟩ : Reference) ∧
        getContents e'.contents "icon" = some invalidZipFile :=
  ⟨(OpenCachedBlobFile_cache_contract ⟨[], [], []⟩
      ⟨⟨"bob", "wordpress", "trusty", 0⟩, ⟨"bob", "wordpress", "", -1⟩, "bob",
        "wordpress", 0, "trusty", "h1", "b0", 10,
        [("icon", ⟨0, 0, 0, 0, false⟩)], none, 0⟩
      "icon" isIconFile (by decide)).1 ⟨0, 0, 0, 0, false⟩ (by decide) rfl,
   (OpenCachedBlobFile_cache_contract
      ⟨[⟨⟨"bob", "wordpress", "trusty", 0⟩, ⟨"bob", "wordpress", "", -1⟩, "bob",
          "wordpress", 0, "trusty", "h1", "b0", 10, [], none, 0⟩], [],
        [("b0", ⟨"h1", 10, true, [("README.md", ⟨3, 4, 5, 8, true⟩)],
          .charm [] [] []⟩)]⟩
      ⟨⟨"bob", "wordpress", "trusty", 0⟩, ⟨"bob", "wordpress", "", -1⟩, "bob",
        "wordpress", 0, "trusty", "h1", "b0", 10, [], none, 0⟩
      "icon" isIconFile (by decide)).2 (by decide)
      ("b0", ⟨"h1", 10, true, [("README.md", ⟨3, 4, 5, 8, true⟩)], .charm [] [] []⟩)
      (by decide) (by decide) (by decide)⟩

theorem addBlobAndEntity_eq_error_kind {st : Store} {id : Reference} {body : Body}
    {hash : String} {cl : Int} {name : String} {sOk : Bool} {err : Err} {st' : Store}
    (h : addBlobAndEntity st id body hash cl name sOk = (.error err, st')) :
    err.kind = .duplicateUpload ∨ err.kind = .other := by
  simp only [addBlobAndEntity] at h
  split at h
  · cases h; exact Or.inr rfl
  case _ st1 hput =>
    split at h
    · cases h; exact Or.inr rfl
    · split at h
      case _ e st2 heq =>
        cases h
        rcases addEntity_eq_error_kind heq with hk | hk <;> simp [mask, hk]
      case _ u st2 heq => cases h

theorem servePostArchiveInner_precond_violation (st : Store) (id : Reference)
    (hash : String) (cl : Int) (body : Body) (nm : String) (sOk : Bool)
    (hviol : id.series = "" ∨ id.revision ≠ -1 ∨ hash = "" ∨ cl = -1) :
    ∃ m, servePostArchiveInner st id hash cl body nm sOk
      = (.error ⟨.badRequest, m⟩, st) := by
  simp only [servePostArchiveInner]
  by_cases hs : id.series = ""
  · rw [if_pos hs]; exact ⟨_, rfl⟩
  · rw [if_neg hs]
    by_cases hr : id.revision ≠ -1
    · rw [if_pos hr]; exact ⟨_, rfl⟩
    · rw [if_neg hr]
      by_cases hh : hash = ""
      · rw [if_pos hh]; exact ⟨_, rfl⟩
      · rw [if_neg hh]
        have hc : cl = -1 := by tauto
        rw [if_pos hc]; exact ⟨_, rfl⟩

theorem servePostArchiveInner_no_badRequest (st : Store) (id : Reference)
    (hash : String) (cl : Int) (body : Body) (nm : String) (sOk : Bool)
    (hs : id.series ≠ "") (hr : id.revision = -1) (hh : hash ≠ "") (hc : cl ≠ -1) :
    ∀ err, (servePostArchiveInner st id hash cl body nm sOk).1 = .error err →
      err.kind ≠ .badRequest := by
  intro err h
  simp only [servePostArchiveInner] at h
  rw [if_neg hs, if_neg (by simp [hr]), if_neg hh, if_neg hc] at h
  split at h
  · simp at h
  · split at h
    case _ e st2 heq =>
      simp only at h
      cases h
      rcases addBlobAndEntity_eq_error_kind heq with hk | hk <;> simp [mask, hk]
    case _ u st2 heq => simp at h

/-- Claim C7: a POST is rejected with BadRequest — before any blob or entity
is written, the store being left untouched — exactly when one of its
preconditions is violated: empty series, a revision other than `-1`, an
empty declared hash, or an unspecified declared content length (`-1`). -/
theorem servePostArchive_badRequest_iff (st : Store) (id : Reference) (hash : String)
    (cl : Int) (body : Body) (nm : String) (sOk : Bool) :
    ((∃ err, (servePostArchive st id hash cl body nm sOk).response = .error err
        ∧ err.kind = .badRequest)
      ↔ (id.series = "" ∨ id.revision ≠ -1 ∨ hash = "" ∨ cl = -1))
    ∧ ((id.series = "" ∨ id.revision ≠ -1 ∨ hash = "" ∨ cl = -1) →
        (servePostArchive st id hash cl body nm sOk).store = st) := by
  have hresp : (servePostArchive st id hash cl body nm sOk).response
      = (servePostArchiveInner st id hash cl body nm sOk).1 := rfl
  have hstore : (servePostArchive st id hash cl body nm sOk).store
      = (servePostArchiveInner st id hash cl body nm sOk).2 := rfl
  constructor
  · constructor
    · rintro ⟨err, herr, hkind⟩
      by_contra hviol
      push_neg at hviol
      rcases hviol with ⟨hs, hr, hh, hc⟩
      rw [hresp] at herr
      exact servePostArchiveInner_no_badRequest st id hash cl body nm sOk
        hs hr hh hc err herr hkind
    · intro hviol
      rcases servePostArchiveInner_precond_violation st id hash cl body nm sOk hviol
        with ⟨m, hm⟩
      exact ⟨⟨.badRequest, m⟩, by rw [hresp, hm], rfl⟩
  · intro hviol
    rcases servePostArchiveInner_precond_violation st id hash cl body nm sOk hviol
      with ⟨m, hm⟩
    rw [hstore, hm]

/-- Witness for C7 at a concrete input: a POST with a specified revision is
rejected as BadRequest and leaves the store untouched. -/
theorem servePostArchive_badRequest_iff_witness :
    (∃ err, (servePostArchive ⟨[], [], []⟩ ⟨"bob", "wordpress", "trusty", 3⟩ "h1" 10
        ⟨"h1", 10, true, [], .charm [] [] []⟩ "b0" true).response = .error err
      ∧ err.kind = .badRequest)
    ∧ (servePostArchive ⟨[], [], []⟩ ⟨"bob", "wordpress", "trusty", 3⟩ "h1" 10
        ⟨"h1", 10, true, [], .charm [] [] []⟩ "b0" true).store = ⟨[], [], []⟩ :=
  ⟨(servePostArchive_badRequest_iff ⟨[], [], []⟩ ⟨"bob", "wordpress", "trusty", 3⟩
      "h1" 10 ⟨"h1", 10, true, [], .charm [] [] []⟩ "b0" true).1.mpr
      (Or.inr (Or.inl (by decide))),
   (servePostArchive_badRequest_iff ⟨[], [], []⟩ ⟨"bob", "wordpress", "trusty", 3⟩
      "h1" 10 ⟨"h1", 10, true, [], .charm [] [] []⟩ "b0" true).2
      (Or.inr (Or.inl (by decide)))⟩

theorem FindEntities_subset {st : Store} {id : Reference} {e : Entity}
    (h : e ∈ FindEntities st id) : e ∈ st.entities := by
  simp only [FindEntities] at h
  have h1 := (List.mem_filter.mp h).1
  split at h1 <;> exact (List.mem_filter.mp h1).1

theorem foldl_latest_mem (e : Entity) (es : List Entity) :
    es.foldl (fun latest entity =>
      if entity.url.revision > latest.url.revision then entity else latest) e
      ∈ e :: es := by
  induction es generalizing e with
  | nil => simp
  | cons x xs ih =>
    simp only [List.foldl_cons]
    by_cases hgt : x.url.revision > e.url.revision
    · rw [if_pos hgt]
      rcases List.mem_cons.mp (ih x) with h | h
      · rw [h]; simp
      · simp [h]
    · rw [if_neg hgt]
      rcases List.mem_cons.mp (ih e) with h | h
      · rw [h]; simp
      · simp [h]

theorem latestRevisionInfo_mem {st : Store} {id : Reference} {oldId : Reference}
    {oldHash : String} (h : latestRevisionInfo st id = some (oldId, oldHash)) :
    ∃ e ∈ FindEntities st id, e.url = oldId ∧ e.blobHash = oldHash := by
  simp only [latestRevisionInfo] at h
  split at h
  · cases h
  case _ e es heq =>
    cases h
    exact ⟨_, heq ▸ foldl_latest_mem e es, rfl, rfl⟩

theorem latestRevisionInfo_none {st : Store} {id : Reference}
    (h : latestRevisionInfo st id = none) : FindEntities st id = [] := by
  simp only [latestRevisionInfo] at h
  split at h
  case _ heq => exact heq
  case _ e es heq => cases h

theorem foldl_pick_rev (e : Entity) (es : List Entity) :
    (es.foldl (fun latest entity =>
      if entity.url.revision > latest.url.revision then entity else latest) e).url.revision
      = (es.map (fun x => x.url.revision)).foldl max e.url.revision := by
  induction es generalizing e with
  | nil => rfl
  | cons x xs ih =>
    simp only [List.foldl_cons, List.map_cons]
    rw [ih]
    congr 1
    by_cases hgt : x.url.revision > e.url.revision
    · rw [if_pos hgt]
      exact (max_eq_right (le_of_lt hgt)).symm
    · rw [if_neg hgt]
      exact (max_eq_left (le_of_not_lt hgt)).symm

theorem latestRevisionInfo_rev {st : Store} {id : Reference} {oldId : Reference}
    {oldHash : String} (h : latestRevisionInfo st id = some (oldId, oldHash)) :
    listMax? ((FindEntities st id).map (fun e => e.url.revision)) = some oldId.revision := by
  simp only [latestRevisionInfo] at h
  split at h
  · cases h
  case _ e es heq =>
    cases h
    rw [heq]
    simp only [listMax?, List.map_cons]
    rw [foldl_pick_rev]

theorem FindEntities_eq_matching {st : Store} {id : Reference}
    (hwfb : ∀ e ∈ st.entities, e.baseUrl = baseURL e.url)
    (hs : id.series ≠ "") (hr : id.revision = -1) :
    FindEntities st id = st.entities.filter (fun e =>
      e.url.user == id.user && e.url.name == id.name && e.url.series == id.series) := by
  unfold FindEntities
  rw [if_pos (Or.inr hr)]
  rw [List.filter_filter]
  apply List.filter_congr
  intro e hmem
  have he : e.baseUrl = baseURL e.url := hwfb e hmem
  simp only [matchURL, baseURL, he]
  by_cases h1 : e.url.user = id.user <;> by_cases h2 : e.url.name = id.name <;>
    by_cases h3 : e.url.series = id.series <;>
      (rw [Bool.eq_iff_iff]
       simp [h1, h2, h3, hr, hs, beq_iff_eq, Reference.mk.injEq])

/-- Claim C2: a POST for which the latest existing revision of the same
(user, name, series) carries the same blob hash as the declared hash returns
success with the existing ref — fully qualified when all stored entities are
— and leaves the store completely unchanged: no new blob and no new
entity. -/
theorem servePostArchive_idempotent (st : Store) (id : Reference) (hash : String)
    (cl : Int) (body : Body) (nm : String) (sOk : Bool)
    (hs : id.series ≠ "") (hr : id.revision = -1) (hh : hash ≠ "") (hc : cl ≠ -1)
    (oldId : Reference) (oldHash : String)
    (hold : latestRevisionInfo st id = some (oldId, oldHash))
    (hmatch : oldHash = hash)
    (hwf : ∀ e ∈ st.entities, e.url.series ≠ "" ∧ 0 ≤ e.url.revision) :
    (servePostArchive st id hash cl body nm sOk).response = .ok (some oldId)
    ∧ (servePostArchive st id hash cl body nm sOk).store = st
    ∧ oldId.series ≠ "" ∧ 0 ≤ oldId.revision := by
  have hinner : servePostArchiveInner st id hash cl body nm sOk = (.ok (some oldId), st) := by
    simp only [servePostArchiveInner]
    rw [if_neg hs, if_neg (by simp [hr]), if_neg hh, if_neg hc]
    simp only [hold]
    rw [if_pos hmatch]
    rfl
  have hfq : oldId.series ≠ "" ∧ 0 ≤ oldId.revision := by
    rcases latestRevisionInfo_mem hold with ⟨e, hmem, hurl, _⟩
    have := hwf e (FindEntities_subset hmem)
    rw [hurl] at this
    exact this
  refine ⟨?_, ?_, hfq.1, hfq.2⟩
  · show (servePostArchiveInner st id hash cl body nm sOk).1 = .ok (some oldId)
    rw [hinner]
  · show (servePostArchiveInner st id hash cl body nm sOk).2 = st
    rw [hinner]

/-- Witness for C2 at a concrete input: a store holding revision 0 with hash
`"h1"`, POSTed again with hash `"h1"`. -/
theorem servePostArchive_idempotent_witness :
    (servePostArchive
        ⟨[⟨⟨"bob", "wordpress", "trusty", 0⟩, ⟨"bob", "wordpress", "", -1⟩, "bob",
            "wordpress", 0, "trusty", "h1", "b0", 10, [], none, 0⟩], [],
          [("b0", ⟨"h1", 10, true, [], .charm [] [] []⟩)]⟩
        ⟨"bob", "wordpress", "trusty", -1⟩ "h1" 10
        ⟨"h1", 10, true, [], .charm [] [] []⟩ "b1" true).response
      = .ok (some ⟨"bob", "wordpress", "trusty", 0⟩)
    ∧ (servePostArchive
        ⟨[⟨⟨"bob", "wordpress", "trusty", 0⟩, ⟨"bob", "wordpress", "", -1⟩, "bob",
            "wordpress", 0, "trusty", "h1", "b0", 10, [], none, 0⟩], [],
          [("b0", ⟨"h1", 10, true, [], .charm [] [] []⟩)]⟩
        ⟨"bob", "wordpress", "trusty", -1⟩ "h1" 10
        ⟨"h1", 10, true, [], .charm [] [] []⟩ "b1" true).store
      = ⟨[⟨⟨"bob", "wordpress", "trusty", 0⟩, ⟨"bob", "wordpress", "", -1⟩, "bob",
            "wordpress", 0, "trusty", "h1", "b0", 10, [], none, 0⟩], [],
          [("b0", ⟨"h1", 10, true, [], .charm [] [] []⟩)]⟩
    ∧ ("trusty" : String) ≠ "" ∧ (0 : Int) ≤ 0 :=
  servePostArchive_idempotent _ ⟨"bob", "wordpress", "trusty", -1⟩ "h1" 10
    ⟨"h1", 10, true, [], .charm [] [] []⟩ "b1" true
    (by decide) rfl (by decide) (by decide)
    ⟨"bob", "wordpress", "trusty", 0⟩ "h1" (by decide) rfl (by decide)

/-- Claim C3: a POST whose declared hash differs from the latest revision's
hash allocates, for the new entity it reports on success, the revision one
greater than the maximum existing revision for the same (user, name, series),
or revision 0 when no such entity exists. -/
theorem servePostArchive_next_revision (st : Store) (id : Reference) (hash : String)
    (cl : Int) (body : Body) (nm : String) (sOk : Bool)
    (hwfb : ∀ e ∈ st.entities, e.baseUrl = baseURL e.url)
    (hs : id.series ≠ "") (hr : id.revision = -1)
    (hnew : ∀ p, latestRevisionInfo st id = some p → p.2 ≠ hash)
    (r : Reference)
    (hok : (servePostArchive st id hash cl body nm sOk).response = .ok (some r)) :
    r.revision = (match listMax? (matchingRevisions st id) with
                  | none => 0
                  | some m => m + 1) := by
  have hmr : matchingRevisions st id
      = (FindEntities st id).map (fun e => e.url.revision) := by
    unfold matchingRevisions
    rw [FindEntities_eq_matching hwfb hs hr]
  have hok' : (servePostArchiveInner st id hash cl body nm sOk).1 = .ok (some r) := hok
  simp only [servePostArchiveInner] at hok'
  rw [if_neg hs, if_neg (by simp [hr])] at hok'
  split at hok'
  · simp at hok'
  · split at hok'
    · simp at hok'
    · rcases hlri : latestRevisionInfo st id with _ | ⟨oldId, oldHash⟩
      · simp only [hlri] at hok'
        split at hok'
        · simp at hok'
        · split at hok'
          case _ e st2 heq => simp at hok'
          case _ u st2 heq =>
            simp only at hok'
            cases hok'
            have hempty : FindEntities st id = [] := latestRevisionInfo_none hlri
            rw [hmr, hempty]
            rfl
      · simp only [hlri] at hok'
        rw [if_neg (hnew (oldId, oldHash) hlri)] at hok'
        split at hok'
        case _ e st2 heq => simp at hok'
        case _ u st2 heq =>
          simp only at hok'
          cases hok'
          have hmax := latestRevisionInfo_rev hlri
          rw [hmr, hmax]

/-- Witness for C3 at a concrete input: a store holding revisions 0 and 2 of
the same (user, name, series); a POST with a different hash allocates
revision 3. -/
theorem servePostArchive_next_revision_witness :
    (⟨"bob", "wordpress", "trusty", 3⟩ : Reference).revision
      = (match listMax? (matchingRevisions
            ⟨[⟨⟨"bob", "wordpress", "trusty", 0⟩, ⟨"bob", "wordpress", "", -1⟩, "bob",
                "wordpress", 0, "trusty", "h1", "b0", 10, [], none, 0⟩,
              ⟨⟨"bob", "wordpress", "trusty", 2⟩, ⟨"bob", "wordpress", "", -1⟩, "bob",
                "wordpress", 2, "trusty", "h2", "b2", 11, [], none, 0⟩], [],
              [("b0", ⟨"h1", 10, true, [], .charm [] [] []⟩),
               ("b2", ⟨"h2", 11, true, [], .charm [] [] []⟩)]⟩
            ⟨"bob", "wordpress", "trusty", -1⟩) with
         | none => 0
         | some m => m + 1) := by
  refine servePostArchive_next_revision
    ⟨[⟨⟨"bob", "wordpress", "trusty", 0⟩, ⟨"bob", "wordpress", "", -1⟩, "bob",
        "wordpress", 0, "trusty", "h1", "b0", 10, [], none, 0⟩,
      ⟨⟨"bob", "wordpress", "trusty", 2⟩, ⟨"bob", "wordpress", "", -1⟩, "bob",
        "wordpress", 2, "trusty", "h2", "b2", 11, [], none, 0⟩], [],
      [("b0", ⟨"h1", 10, true, [], .charm [] [] []⟩),
       ("b2", ⟨"h2", 11, true, [], .charm [] [] []⟩)]⟩
    ⟨"bob", "wordpress", "trusty", -1⟩ "h9" 12 ⟨"h9", 12, true, [], .charm [] [] []⟩
    "b9" true (by decide) (by decide) rfl ?_
    ⟨"bob", "wordpress", "trusty", 3⟩ (by decide)
  · intro p hp
    rw [show latestRevisionInfo
        ⟨[⟨⟨"bob", "wordpress", "trusty", 0⟩, ⟨"bob", "wordpress", "", -1⟩, "bob",
            "wordpress", 0, "trusty", "h1", "b0", 10, [], none, 0⟩,
          ⟨⟨"bob", "wordpress", "trusty", 2⟩, ⟨"bob", "wordpress", "", -1⟩, "bob",
            "wordpress", 2, "trusty", "h2", "b2", 11, [], none, 0⟩], [],
          [("b0", ⟨"h1", 10, true, [], .charm [] [] []⟩),
           ("b2", ⟨"h2", 11, true, [], .charm [] [] []⟩)]⟩
        ⟨"bob", "wordpress", "trusty", -1⟩
        = some (⟨"bob", "wordpress", "trusty", 2⟩, "h2") from by decide] at hp
    cases hp
    decide

end CharmStore
